import Mathlib

/-!
Verification of the DNS UDP query program (src/main.rs).

A shallow embedding of the codec parts of the program:
bytes are `Nat` values below 256, buffers are `List Nat`, Rust `&str`
values are modelled as `List Char` (a sequence of Unicode scalar
values, matching Rust's `str::chars`), and the fallible buffer reads
of the `bytes` crate (which panic on underrun, aborting the program)
are modelled in the `Option` monad.
-/

namespace DnsQuery

/-- Model of Rust's `char` length in UTF-8 (what `str::len` sums over). -/
def charUtf8Len (c : Char) : Nat :=
  if c.toNat < 0x80 then 1
  else if c.toNat < 0x800 then 2
  else if c.toNat < 0x10000 then 3
  else 4

/-- Model of Rust's `str::len`: the UTF-8 byte length of the string. -/
def strByteLen (s : List Char) : Nat :=
  (s.map charUtf8Len).sum

/-- Model of Rust's `name.split('.')` as used in `add_question`
(src/main.rs line 184): splitting an empty string yields one empty
label, and every dot starts a new (possibly empty) label. -/
def splitOnDot : List Char → List (List Char)
  | [] => [[]]
  | c :: rest =>
    match splitOnDot rest with
    | [] => [[]]
    | l :: ls => if c = '.' then [] :: l :: ls else (c :: l) :: ls

/-- `bytes::BufMut::put_u16_le`: low byte first. -/
def putU16le (v : Nat) : List Nat :=
  [v % 256, v / 256 % 256]

/-- `bytes::BufMut::put_u16_be`: high byte first. -/
def putU16be (v : Nat) : List Nat :=
  [v / 256 % 256, v % 256]

/-- `bytes::Buf::get_u8`: one byte from the front, panics (here: `none`)
on an empty buffer. -/
def getU8 : List Nat → Option (Nat × List Nat)
  | [] => none
  | b :: rest => some (b, rest)

/-- `bytes::Buf::get_u16_le`: two bytes from the front, low byte first,
panics (here: `none`) when fewer than two bytes remain. -/
def getU16le : List Nat → Option (Nat × List Nat)
  | b0 :: b1 :: rest => some (b0 + 256 * b1, rest)
  | _ => none

/-- Flag-byte 1 construction from `DNSRequest::to_buffer`
(src/main.rs lines 119-132): `bt = opcode; bt <<= 3;` then XOR in
qr (0x80), aa (0x04), tc (0x02), rd (0x01). Fields are `u8`. -/
def packOctet1 (qr : Bool) (opcode : Nat) (aa tc rd : Bool) : Nat :=
  let bt := opcode % 256 * 8 % 256
  let bt := if qr then bt ^^^ 0x80 else bt
  let bt := if aa then bt ^^^ 0x04 else bt
  let bt := if tc then bt ^^^ 0x02 else bt
  if rd then bt ^^^ 0x01 else bt

/-- Flag-byte 2 construction from `DNSRequest::to_buffer`
(src/main.rs lines 139-144): `bt = z; bt <<= 4;` then XOR in
ra (0x80) and `rcode & 0x0F`. -/
def packOctet2 (ra : Bool) (z rcode : Nat) : Nat :=
  let bt := z % 256 * 16 % 256
  let bt := if ra then bt ^^^ 0x80 else bt
  bt ^^^ (rcode % 256 &&& 0x0F)

/-- The nine header flag fields (shared shape of request and response). -/
structure Flags where
  qr : Bool
  opcode : Nat
  aa : Bool
  tc : Bool
  rd : Bool
  ra : Bool
  z : Nat
  rcode : Nat
deriving DecidableEq, Repr

/-- Packing all flags into the two flag octets, exactly as
`DNSRequest::to_buffer` builds them. -/
def packFlags (f : Flags) : Nat × Nat :=
  (packOctet1 f.qr f.opcode f.aa f.tc f.rd, packOctet2 f.ra f.z f.rcode)

/-- Flag extraction from `DNSResponse::from_buffer`
(src/main.rs lines 44-53): bitwise AND with fixed masks; note that
`opcode` and `z` are NOT shifted back down. -/
def unpackFlags (o1 o2 : Nat) : Flags where
  qr := decide (0 < o1 &&& 0b10000000)
  opcode := o1 &&& 0b01111000
  aa := decide (0 < o1 &&& 0b00000100)
  tc := decide (0 < o1 &&& 0b00000010)
  rd := decide (0 < o1 &&& 0b00000001)
  ra := decide (0 < o2 &&& 0b10000000)
  z := o2 &&& 0b01110000
  rcode := o2 &&& 0b00001111

/-- The `DNSResponse` struct (src/main.rs lines 5-19). -/
structure DNSResponse where
  id : Nat
  qr : Bool
  opcode : Nat
  aa : Bool
  tc : Bool
  rd : Bool
  ra : Bool
  z : Nat
  rcode : Nat
  ancount : Nat
  nscount : Nat
  arcount : Nat
deriving DecidableEq, Repr

/-- `DNSResponse::new` (src/main.rs lines 22-38); the random id is an
explicit parameter. -/
def DNSResponse.new (id : Nat) : DNSResponse where
  id := id
  qr := false
  opcode := 0
  aa := false
  tc := false
  rd := true
  ra := false
  z := 0
  rcode := 0
  ancount := 0
  nscount := 0
  arcount := 0

/-- `DNSResponse::from_buffer` (src/main.rs lines 40-54): reads the id
little-endian, then the two flag octets, extracting fields by the same
masks as `unpackFlags`.  A buffer underrun panics in the source
(propagating out of the program); here the whole call returns `none`. -/
def DNSResponse.from_buffer (self : DNSResponse) (buf : List Nat) :
    Option (DNSResponse × List Nat) := do
  let (i, buf) ← getU16le buf
  let self := { self with id := i }
  let (byte, buf) ← getU8 buf
  let self := { self with
    qr := decide (0 < byte &&& 0b10000000)
    opcode := byte &&& 0b01111000
    aa := decide (0 < byte &&& 0b00000100)
    tc := decide (0 < byte &&& 0b00000010)
    rd := decide (0 < byte &&& 0b00000001) }
  let (byte, buf) ← getU8 buf
  pure ({ self with
    ra := decide (0 < byte &&& 0b10000000)
    z := byte &&& 0b01110000
    rcode := byte &&& 0b00001111 }, buf)

/-- The `DNSRequest` struct (src/main.rs lines 57-72): `names` holds
each added question, already split into labels. -/
structure DNSRequest where
  id : Nat
  qr : Bool
  opcode : Nat
  aa : Bool
  tc : Bool
  rd : Bool
  ra : Bool
  z : Nat
  rcode : Nat
  ancount : Nat
  nscount : Nat
  arcount : Nat
  names : List (List (List Char))
deriving DecidableEq, Repr

/-- `DNSRequest::new` (src/main.rs lines 75-91); the random id is an
explicit parameter. -/
def DNSRequest.new (id : Nat) : DNSRequest where
  id := id
  qr := false
  opcode := 0
  aa := false
  tc := false
  rd := true
  ra := false
  z := 0
  rcode := 0
  ancount := 0
  nscount := 0
  arcount := 0
  names := []

/-- `DNSRequest::add_question` (src/main.rs lines 181-186): split the
name on dots and append the label list. -/
def DNSRequest.add_question (r : DNSRequest) (name : List Char) : DNSRequest :=
  { r with names := r.names ++ [splitOnDot name] }

/-- `DNSRequest::qdcount` (src/main.rs lines 188-190):
`self.names.len() as u16` truncates to 16 bits. -/
def DNSRequest.qdcount (r : DNSRequest) : Nat :=
  r.names.length % 65536

/-- The wire bytes emitted for one name by the loop body of
`DNSRequest::to_buffer` (src/main.rs lines 160-167): for each label one
length octet (`part.len() as u8`, the UTF-8 byte length truncated to a
byte) followed by one byte per character (`c as u8`, the code point's
low 8 bits), then a single terminating zero octet. -/
def encodeName (name : List (List Char)) : List Nat :=
  (name.map (fun part =>
    strByteLen part % 256 :: part.map (fun c => c.toNat % 256))).flatten ++ [0]

/-- One question's bytes (src/main.rs lines 160-176): the encoded name,
then QTYPE = 0x0001 and QCLASS = 0x0001, each big-endian. -/
def questionBytes (name : List (List Char)) : List Nat :=
  encodeName name ++ [0, 1, 0, 1]

/-- `DNSRequest::to_buffer` (src/main.rs lines 93-179): id little-endian,
the two flag octets, the four counts big-endian, then each question. -/
def DNSRequest.to_buffer (r : DNSRequest) : List Nat :=
  putU16le r.id
    ++ [packOctet1 r.qr r.opcode r.aa r.tc r.rd, packOctet2 r.ra r.z r.rcode]
    ++ putU16be r.qdcount
    ++ putU16be r.ancount
    ++ putU16be r.nscount
    ++ putU16be r.arcount
    ++ (r.names.map questionBytes).flatten

/-- The mask-building loop of `get_bits` (src/main.rs lines 194-203):
`mask` starts at 1 and the loop body `mask <<= 1; mask |= 1` runs
`count - 1` times (`mask` is a `u16`). -/
def maskLoop : Nat → Nat → Nat
  | m, 0 => m
  | m, k + 1 => maskLoop (m * 2 % 65536 ||| 1) k

/-- The 16-character output of `format!` with the 016b specifier on a
`u16` value: the binary rendering of bit 15 down to bit 0. -/
def formatBin16 (v : Nat) : List Char :=
  (List.range 16).map (fun i => if v.testBit (15 - i) then '1' else '0')

/-- `get_bits` (src/main.rs lines 193-207): build a mask of `count` low
bits, AND it with `num`, render 16 binary digits and keep the last
`count` of them.  `count = 0` underflows the loop counter in the source
(a panic), modelled as `none`. -/
def get_bits (num : Nat) (count : Nat) : Option (List Char) :=
  match count with
  | 0 => none
  | k + 1 =>
    let mask := maskLoop 1 k
    let opcode := num &&& mask
    some ((formatBin16 opcode).drop (16 - count))

/-- Zero-padded binary rendering with exactly `w` characters, most
significant bit first, as the specification describes `renderBits`. -/
def binRender : Nat → Nat → List Char
  | 0, _ => []
  | w + 1, v => binRender w (v / 2) ++ [if v % 2 = 1 then '1' else '0']

end DnsQuery

namespace DnsQuery

lemma unpack_packOctet1 : ∀ (o : Fin 16) (qr aa tc rd : Bool),
    unpackFlags (packOctet1 qr o.val aa tc rd) 0
      = ⟨qr, 8 * o.val, aa, tc, rd, false, 0, 0⟩ := by decide

lemma unpack_packOctet2 : ∀ (z : Fin 8) (rc : Fin 16) (ra : Bool),
    unpackFlags 0 (packOctet2 ra z.val rc.val)
      = ⟨false, 0, false, false, false, ra, 16 * z.val, rc.val⟩ := by decide

/-- Claim C1 (as stated) is false: the flag round-trip
unpackFlags (packFlags flags) = flags fails already at opcode = 1 with
every other field zero or false, because from_buffer extracts opcode
with the mask 0x78 but never shifts it back down by 3 bits. -/
theorem flags_roundtrip_cex :
    unpackFlags (packFlags ⟨false, 1, false, false, false, false, 0, 0⟩).1
        (packFlags ⟨false, 1, false, false, false, false, 0, 0⟩).2
      ≠ ⟨false, 1, false, false, false, false, 0, 0⟩ := by decide

/-- Claim C1, amended: for every flag assignment with opcode in [0,15],
z in [0,7] and rcode in [0,15], unpacking the two packed octets returns
the five booleans and rcode unchanged, but returns opcode multiplied by
8 and z multiplied by 16 (they stay in wire position, since
from_buffer masks without shifting); the full round-trip therefore
holds exactly when opcode = 0 and z = 0. -/
theorem flags_roundtrip_shifted (qr aa tc rd ra : Bool) (opcode z rcode : Nat)
    (ho : opcode < 16) (hz : z < 8) (hr : rcode < 16) :
    unpackFlags (packFlags ⟨qr, opcode, aa, tc, rd, ra, z, rcode⟩).1
        (packFlags ⟨qr, opcode, aa, tc, rd, ra, z, rcode⟩).2
      = ⟨qr, 8 * opcode, aa, tc, rd, ra, 16 * z, rcode⟩ := by
  have h1 := unpack_packOctet1 ⟨opcode, ho⟩ qr aa tc rd
  have h2 := unpack_packOctet2 ⟨z, hz⟩ ⟨rcode, hr⟩ ra
  simp only [unpackFlags, Flags.mk.injEq] at h1 h2 ⊢
  obtain ⟨e1, e2, e3, e4, e5, -, -, -⟩ := h1
  obtain ⟨-, -, -, -, -, e6, e7, e8⟩ := h2
  exact ⟨e1, e2, e3, e4, e5, e6, e7, e8⟩

/-- Witness for the amended claim C1 at qr = true, opcode = 5,
aa = false, tc = true, rd = false, ra = true, z = 3, rcode = 9. -/
theorem flags_roundtrip_shifted_witness :
    (5 < 16 ∧ 3 < 8 ∧ 9 < 16)
    ∧ unpackFlags (packFlags ⟨true, 5, false, true, false, true, 3, 9⟩).1
        (packFlags ⟨true, 5, false, true, false, true, 3, 9⟩).2
      = ⟨true, 40, false, true, false, true, 48, 9⟩ :=
  ⟨⟨by decide, by decide, by decide⟩,
   flags_roundtrip_shifted true false true false true 5 3 9
     (by decide) (by decide) (by decide)⟩

/-- Claim C2 (as stated) is false: with the single question
www.wp.pl the question section starts with length octet 3 (the label
www has three characters), not 4, and the total message length is 27
bytes (12 header + 11 name + 2 QTYPE + 2 QCLASS), not 23. -/
theorem serialize_wp_question_cex :
    ¬ (((DNSRequest.new 0).add_question "www.wp.pl".data).to_buffer.drop 12
          = [4, 119, 119, 119, 2, 119, 112, 2, 112, 108, 0, 0, 1, 0, 1]
       ∧ ((DNSRequest.new 0).add_question "www.wp.pl".data).to_buffer.length = 23) := by
  decide

/-- Claim C2, amended: for every transaction id, serializing a
QueryMessage with the single question www.wp.pl produces the question
section 3,www,2,wp,2,pl,0 followed by QTYPE 0x0001 and QCLASS 0x0001
big-endian, and the total serialized length is 27 bytes. -/
theorem serialize_wp_question (id : Nat) :
    ((DNSRequest.new id).add_question "www.wp.pl".data).to_buffer.drop 12
        = [3, 119, 119, 119, 2, 119, 112, 2, 112, 108, 0, 0, 1, 0, 1]
    ∧ ((DNSRequest.new id).add_question "www.wp.pl".data).to_buffer.length = 27 :=
  ⟨rfl, rfl⟩

/-- Claim C3 (as stated) is false: with the question www.wp.pl the
encoded name is 11 bytes including the terminating zero, so the
claimed formula 12 + (encoded-name-length + 5) gives 28, but the
buffer is 27 bytes long (each question adds its encoded name plus 4
bytes of QTYPE and QCLASS, not plus 5). -/
theorem to_buffer_length_cex :
    ¬ (((DNSRequest.new 0).add_question "www.wp.pl".data).to_buffer.length
        = 12 + ((((DNSRequest.new 0).add_question "www.wp.pl".data).names.map
            (fun n => (encodeName n).length + 5)).sum)) := by decide

/-- Claim C3, amended: for every QueryMessage the serialized buffer
length is 12 plus, summed over all questions, the question's
encoded-name length (length-prefixed labels including the terminating
zero octet) plus 4 (two bytes QTYPE, two bytes QCLASS). -/
theorem to_buffer_length (r : DNSRequest) :
    r.to_buffer.length
      = 12 + (r.names.map (fun n => (encodeName n).length + 4)).sum := by
  have hq : (r.names.map (List.length ∘ questionBytes))
      = r.names.map (fun n => (encodeName n).length + 4) := by
    apply List.map_congr_left
    intro n _
    simp [questionBytes]
  simp [DNSRequest.to_buffer, putU16le, putU16be, List.length_flatten,
    List.map_map, hq]
  omega

/-- Claim C4: serialize writes the 16-bit id little-endian (low byte
at offset 0) and writes QDCOUNT, ANCOUNT, NSCOUNT and ARCOUNT
big-endian (high byte first) at offsets 4 through 11; symmetrically,
the response decoder reads its 16-bit id little-endian from the first
two bytes. -/
theorem byte_order (r : DNSRequest) (resp : DNSResponse) (b0 b1 b2 b3 : Nat)
    (bs : List Nat) :
    r.to_buffer.take 2 = [r.id % 256, r.id / 256 % 256]
    ∧ (r.to_buffer.drop 4).take 8
        = [r.qdcount / 256 % 256, r.qdcount % 256,
           r.ancount / 256 % 256, r.ancount % 256,
           r.nscount / 256 % 256, r.nscount % 256,
           r.arcount / 256 % 256, r.arcount % 256]
    ∧ (resp.from_buffer (b0 :: b1 :: b2 :: b3 :: bs)).map (fun p => p.1.id)
        = some (b0 + 256 * b1) :=
  ⟨rfl, rfl, rfl⟩

/-- Claim C5: decoding the byte stream 0x34, 0x12, 0x81, 0x80 yields
id = 0x1234 (little-endian), qr = true, opcode = 0, aa = false,
tc = false, rd = true (octet 0x81), ra = true, z = 0, rcode = 0
(octet 0x80), whatever the prior header state was. -/
theorem decode_example (resp : DNSResponse) :
    resp.from_buffer [0x34, 0x12, 0x81, 0x80]
      = some ({ resp with
                id := 0x1234, qr := true, opcode := 0, aa := false
                tc := false, rd := true, ra := true, z := 0, rcode := 0 }, []) := rfl

/-- Claim C7: decoding a stream with fewer than 4 bytes remaining
fails with an underrun (the panic of the bytes crate, modelled as
none), so no decoded header and no partial state reach the caller. -/
theorem decode_underrun (resp : DNSResponse) (buf : List Nat)
    (h : buf.length < 4) : resp.from_buffer buf = none := by
  match buf with
  | [] => rfl
  | [a] => rfl
  | [a, b] => rfl
  | [a, b, c] => rfl
  | a :: b :: c :: d :: t => simp [List.length_cons] at h; omega

/-- Witness for claim C7 on the three-byte stream 1, 2, 3. -/
theorem decode_underrun_witness :
    ([(1 : Nat), 2, 3].length < 4)
    ∧ (DNSResponse.new 0).from_buffer [1, 2, 3] = none :=
  ⟨by decide, decode_underrun (DNSResponse.new 0) [1, 2, 3] (by decide)⟩

/-- Claim C8: on a stream with at least 4 bytes the decoder succeeds,
consumes exactly 4 bytes from the front, and leaves the header's
ancount, nscount and arcount fields unchanged. -/
theorem decode_consumes_four (resp : DNSResponse) (buf : List Nat)
    (h : 4 ≤ buf.length) :
    ∃ r2, resp.from_buffer buf = some (r2, buf.drop 4)
      ∧ r2.ancount = resp.ancount ∧ r2.nscount = resp.nscount
      ∧ r2.arcount = resp.arcount := by
  match buf with
  | a :: b :: c :: d :: t => exact ⟨_, rfl, rfl, rfl, rfl⟩
  | [] => simp at h
  | [a] => simp at h
  | [a, b] => simp at h
  | [a, b, c] => simp at h

/-- Witness for claim C8 on the five-byte stream 52, 18, 129, 128, 7. -/
theorem decode_consumes_four_witness :
    4 ≤ ([(52 : Nat), 18, 129, 128, 7] : List Nat).length
    ∧ ∃ r2, (DNSResponse.new 0).from_buffer [52, 18, 129, 128, 7]
          = some (r2, ([(52 : Nat), 18, 129, 128, 7] : List Nat).drop 4)
        ∧ r2.ancount = (DNSResponse.new 0).ancount
        ∧ r2.nscount = (DNSResponse.new 0).nscount
        ∧ r2.arcount = (DNSResponse.new 0).arcount :=
  ⟨by decide,
   decode_consumes_four (DNSResponse.new 0) [52, 18, 129, 128, 7] (by decide)⟩

/-- The name encoding exactly as claim C6 words it: split on dots, and
for each label emit one length octet equal to the label's CHARACTER
COUNT (as an unsigned byte) followed by one byte per character (the
code point's low 8 bits), then one terminating zero octet. -/
def encodeNameClaimed (name : List Char) : List Nat :=
  ((splitOnDot name).map (fun label =>
    label.length % 256 :: label.map (fun c => c.toNat % 256))).flatten ++ [0]

/-- The amended name encoding: identical to the claimed one except that
the length octet is the label's UTF-8 byte length (what Rust's
str len returns), which only coincides with the character count on
ASCII labels. -/
def encodeNameAmended (name : List Char) : List Nat :=
  ((splitOnDot name).map (fun label =>
    strByteLen label % 256 :: label.map (fun c => c.toNat % 256))).flatten ++ [0]

/-- Claim C6 (as stated) is false: for the one-character non-ASCII name
consisting of the letter e-acute (code point 0xE9), the serializer
emits length octet 2 (the UTF-8 byte length of the label), while the
claim predicts length octet 1 (the character count). -/
theorem name_encoding_cex :
    ((DNSRequest.new 0).add_question ['é']).to_buffer.drop 12
      ≠ encodeNameClaimed ['é'] ++ [0, 1, 0, 1] := by decide

/-- Claim C6, amended: for every input name, the name bytes emitted
during serialization are obtained by splitting the name on dots and
emitting, per label, one length octet equal to the label's UTF-8 byte
length (as an unsigned byte) followed by one byte per character (the
code point's low 8 bits), then a single terminating zero octet. -/
theorem name_encoding (id : Nat) (name : List Char) :
    ((DNSRequest.new id).add_question name).to_buffer.drop 12
      = encodeNameAmended name ++ [0, 1, 0, 1] := by
  simp [DNSRequest.to_buffer, DNSRequest.add_question, DNSRequest.new,
    DNSRequest.qdcount, putU16le, putU16be, questionBytes, encodeName,
    encodeNameAmended]

lemma maskLoop_eq (k : Nat) (hk : k ≤ 15) : maskLoop 1 k = 2 ^ (k + 1) - 1 := by
  interval_cases k <;> rfl

lemma binRender_length (w : Nat) : ∀ v, (binRender w v).length = w := by
  induction w with
  | zero => intro v; rfl
  | succ w ih => intro v; simp [binRender, ih]

lemma binRender_add (a b : Nat) : ∀ v,
    binRender (a + b) v = binRender a (v / 2 ^ b) ++ binRender b (v % 2 ^ b) := by
  induction b with
  | zero => intro v; simp [binRender]
  | succ b ih =>
    intro v
    have h1 : a + (b + 1) = (a + b) + 1 := by omega
    rw [h1]
    show binRender (a + b) (v / 2) ++ _ = _
    rw [ih (v / 2)]
    rw [Nat.div_div_eq_div_mul, List.append_assoc]
    congr 1
    · rw [Nat.pow_succ, Nat.mul_comm (2 ^ b) 2]
    · show binRender b (v / 2 % 2 ^ b) ++ _ = binRender (b + 1) (v % 2 ^ (b + 1))
      rw [show binRender (b + 1) (v % 2 ^ (b + 1))
            = binRender b (v % 2 ^ (b + 1) / 2)
              ++ [if v % 2 ^ (b + 1) % 2 = 1 then '1' else '0'] from rfl]
      have e1 : v % 2 ^ (b + 1) / 2 = v / 2 % 2 ^ b := by
        rw [Nat.pow_succ, Nat.mul_comm, Nat.mod_mul_right_div_self]
      have e2 : v % 2 ^ (b + 1) % 2 = v % 2 := by
        apply Nat.mod_mod_of_dvd
        exact dvd_pow_self 2 (Nat.succ_ne_zero b)
      rw [e1, e2]

lemma binRender_eq_map (w : Nat) : ∀ v,
    binRender w v
      = (List.range w).map (fun i => if v.testBit (w - 1 - i) then '1' else '0') := by
  induction w with
  | zero => intro v; rfl
  | succ w ih =>
    intro v
    rw [show binRender (w + 1) v
          = binRender w (v / 2) ++ [if v % 2 = 1 then '1' else '0'] from rfl]
    rw [ih (v / 2), List.range_succ, List.map_append]
    congr 1
    · apply List.map_congr_left
      intro i hi
      rw [List.mem_range] at hi
      have e : w + 1 - 1 - i = (w - 1 - i) + 1 := by omega
      rw [e, ← Nat.testBit_div_two]
    · simp [Nat.testBit_zero]

lemma formatBin16_eq_binRender (v : Nat) : formatBin16 v = binRender 16 v := by
  rw [binRender_eq_map]
  rfl

/-- Claim C9: for every 16-bit value and every width in [1,16],
get_bits returns exactly width characters, the zero-padded binary
rendering of the value's low width bits; in particular
get_bits 5 3 is 101 and get_bits 5 4 is 0101. -/
theorem get_bits_renders (num w : Nat) (h1 : 1 ≤ w) (h2 : w ≤ 16)
    (hn : num < 65536) :
    (get_bits num w = some (binRender w (num % 2 ^ w))
      ∧ (binRender w (num % 2 ^ w)).length = w)
    ∧ get_bits 5 3 = some ['1', '0', '1']
    ∧ get_bits 5 4 = some ['0', '1', '0', '1'] := by
  refine ⟨⟨?_, binRender_length w _⟩, by decide, by decide⟩
  obtain ⟨k, rfl⟩ : ∃ k, w = k + 1 := ⟨w - 1, by omega⟩
  rw [get_bits]
  rw [maskLoop_eq k (by omega)]
  rw [Nat.and_pow_two_sub_one_eq_mod]
  rw [formatBin16_eq_binRender]
  have hub : num % 2 ^ (k + 1) < 2 ^ (k + 1) :=
    Nat.mod_lt _ (Nat.two_pow_pos (k + 1))
  have h16 : binRender 16 (num % 2 ^ (k + 1))
      = binRender (16 - (k + 1)) (num % 2 ^ (k + 1) / 2 ^ (k + 1))
        ++ binRender (k + 1) (num % 2 ^ (k + 1) % 2 ^ (k + 1)) := by
    rw [← binRender_add]
    congr 1
    omega
  rw [h16, List.drop_left' (binRender_length _ _), Nat.mod_eq_of_lt hub]

/-- Witness for claim C9 at num = 5, width = 3. -/
theorem get_bits_renders_witness :
    (1 ≤ 3 ∧ 3 ≤ 16 ∧ (5 : Nat) < 65536)
    ∧ ((get_bits 5 3 = some (binRender 3 (5 % 2 ^ 3))
          ∧ (binRender 3 (5 % 2 ^ 3)).length = 3)
        ∧ get_bits 5 3 = some ['1', '0', '1']
        ∧ get_bits 5 4 = some ['0', '1', '0', '1']) :=
  ⟨⟨by decide, by decide, by decide⟩,
   get_bits_renders 5 3 (by decide) (by decide) (by decide)⟩

lemma foldl_add_question_names_length (qs : List (List Char)) (r : DNSRequest) :
    (qs.foldl DNSRequest.add_question r).names.length
      = r.names.length + qs.length := by
  induction qs generalizing r with
  | nil => simp
  | cons q qs ih =>
    simp [List.foldl_cons, ih, DNSRequest.add_question]
    omega

/-- Claim C10: after any sequence of add_question calls on a fresh
request, qdcount equals the number of calls reduced modulo 65536 (the
list length cast to u16); nothing enforces the 65535 bound, so the
wire QDCOUNT silently wraps. -/
theorem qdcount_wraps (id : Nat) (qs : List (List Char)) :
    (qs.foldl DNSRequest.add_question (DNSRequest.new id)).qdcount
      = qs.length % 65536 := by
  unfold DNSRequest.qdcount
  rw [foldl_add_question_names_length]
  simp [DNSRequest.new]

end DnsQuery
